import Mathlib

/-!
Shallow embedding of the nsdriver repository (driver.go, netstorage.go) and
verification of its natural-language specification.

Machine integers are modelled as Nat with explicit reduction modulo 2^32
where Go's uint32 arithmetic overflows (the SHA-256 core).  Fallible Go
functions returning (value, error) pairs are modelled as pairs of options,
and Go runtime panics (nil dereference, index out of range) are modelled by
the GoResult type.  External collaborators (the HTTP client, url.Parse, the
XML unmarshaller, the local storage driver factory) are passed in as
function parameters, mirroring their Go interface boundary.
-/

/-! ## Bytes and 32-bit words (Go uint32 arithmetic as Nat mod 2^32) -/

/-- Reduce a Nat to a 32-bit word, as Go uint32 arithmetic does implicitly. -/
def w32 (n : Nat) : Nat := n % 4294967296

/-- Rotate a 32-bit word right by k bits (input assumed < 2^32). -/
def rotr (k x : Nat) : Nat := x / 2 ^ k + x % 2 ^ k * 2 ^ (32 - k)

/-- Logical shift right by k bits. -/
def shr (k x : Nat) : Nat := x / 2 ^ k

/-- SHA-256 choice function. -/
def shaCh (x y z : Nat) : Nat := (x &&& y) ^^^ ((x ^^^ 4294967295) &&& z)

/-- SHA-256 majority function. -/
def shaMaj (x y z : Nat) : Nat := (x &&& y) ^^^ (x &&& z) ^^^ (y &&& z)

/-- SHA-256 big sigma 0. -/
def sigB0 (x : Nat) : Nat := rotr 2 x ^^^ rotr 13 x ^^^ rotr 22 x

/-- SHA-256 big sigma 1. -/
def sigB1 (x : Nat) : Nat := rotr 6 x ^^^ rotr 11 x ^^^ rotr 25 x

/-- SHA-256 small sigma 0. -/
def sigS0 (x : Nat) : Nat := rotr 7 x ^^^ rotr 18 x ^^^ shr 3 x

/-- SHA-256 small sigma 1. -/
def sigS1 (x : Nat) : Nat := rotr 17 x ^^^ rotr 19 x ^^^ shr 10 x

/-- The 64 round constants of FIPS 180-4 section 4.2.2, written as decimal Nat
literals (the fractional parts of the cube roots of the first 64 primes). -/
def shaK : Array Nat := #[
  1116352408, 1899447441, 3049323471, 3921009573, 961987163, 1508970993,
  2453635748, 2870763221, 3624381080, 310598401, 607225278, 1426881987,
  1925078388, 2162078206, 2614888103, 3248222580, 3835390401, 4022224774,
  264347078, 604807628, 770255983, 1249150122, 1555081692, 1996064986,
  2554220882, 2821834349, 2952996808, 3210313671, 3336571891, 3584528711,
  113926993, 338241895, 666307205, 773529912, 1294757372, 1396182291,
  1695183700, 1986661051, 2177026350, 2456956037, 2730485921, 2820302411,
  3259730800, 3345764771, 3516065817, 3600352804, 4094571909, 275423344,
  430227734, 506948616, 659060556, 883997877, 958139571, 1322822218,
  1537002063, 1747873779, 1955562222, 2024104815, 2227730452, 2361852424,
  2428436474, 2756734187, 3204031479, 3329325298]

/-- The initial hash value of FIPS 180-4 section 5.3.3, as decimal Nat literals. -/
def shaH0 : Array Nat := #[
  1779033703, 3144134277, 1013904242, 2773480762, 1359893119, 2600822924,
  528734635, 1541459225]

/-- Big-endian 4-byte encoding of a 32-bit word. -/
def be32 (n : Nat) : List Nat := [n / 16777216 % 256, n / 65536 % 256, n / 256 % 256, n % 256]

/-- Big-endian 8-byte encoding of a 64-bit length. -/
def be64 (n : Nat) : List Nat :=
  [n / 2 ^ 56 % 256, n / 2 ^ 48 % 256, n / 2 ^ 40 % 256, n / 2 ^ 32 % 256,
   n / 2 ^ 24 % 256, n / 2 ^ 16 % 256, n / 2 ^ 8 % 256, n % 256]

/-- Group a byte list into big-endian 32-bit words. -/
def toWords : List Nat → List Nat
  | a :: b :: c :: d :: rest => (a * 16777216 + b * 65536 + c * 256 + d) :: toWords rest
  | _ => []

/-- Extend a 16-word SHA-256 message block to the 64-word schedule. -/
def shaSched (w : Array Nat) : Array Nat :=
  (List.range 48).foldl
    (fun w _ =>
      w.push (w32 (sigS1 (w.getD (w.size - 2) 0) + w.getD (w.size - 7) 0 +
                   sigS0 (w.getD (w.size - 15) 0) + w.getD (w.size - 16) 0)))
    w

/-- One SHA-256 compression round on the 8-word working state. -/
def shaRound (s : Array Nat) (k wi : Nat) : Array Nat :=
  let t1 := w32 (s.getD 7 0 + sigB1 (s.getD 4 0) +
                 shaCh (s.getD 4 0) (s.getD 5 0) (s.getD 6 0) + k + wi)
  let t2 := w32 (sigB0 (s.getD 0 0) + shaMaj (s.getD 0 0) (s.getD 1 0) (s.getD 2 0))
  #[w32 (t1 + t2), s.getD 0 0, s.getD 1 0, s.getD 2 0,
    w32 (s.getD 3 0 + t1), s.getD 4 0, s.getD 5 0, s.getD 6 0]

/-- Compress one 64-byte block into the hash state. -/
def shaBlock (H : Array Nat) (block : List Nat) : Array Nat :=
  let w := shaSched (Array.mk (toWords block))
  let s := (List.range 64).foldl (fun s i => shaRound s (shaK.getD i 0) (w.getD i 0)) H
  Array.mk ((List.range 8).map (fun i => w32 (H.getD i 0 + s.getD i 0)))

/-- SHA-256 padding: 0x80, zeros to 56 mod 64, then the 64-bit bit length. -/
def shaPad (msg : List Nat) : List Nat :=
  msg ++ 128 :: (List.replicate ((119 - msg.length % 64) % 64) 0 ++ be64 (msg.length * 8))

/-- Split a byte list into 64-byte chunks. -/
def chunks64 (l : List Nat) : List (List Nat) :=
  if h : l = [] then [] else
    have : 0 < l.length := List.length_pos.mpr h
    l.take 64 :: chunks64 (l.drop 64)
termination_by l.length
decreasing_by
  simp only [List.length_drop]
  omega

/-- SHA-256 of a byte list, producing the 32-byte digest. -/
def sha256 (msg : List Nat) : List Nat :=
  let H := (chunks64 (shaPad msg)).foldl shaBlock shaH0
  (H.toList.map be32).flatten

/-- HMAC-SHA256 (crypto/hmac with crypto/sha256, block size 64). -/
def hmacSha256 (key msg : List Nat) : List Nat :=
  let k1 := if key.length > 64 then sha256 key else key
  let k2 := k1 ++ List.replicate (64 - k1.length) 0
  sha256 ((k2.map (fun b => b ^^^ 92)) ++ sha256 ((k2.map (fun b => b ^^^ 54)) ++ msg))

/-- The standard base64 alphabet (encoding/base64 StdEncoding). -/
def b64Alphabet : List Char :=
  "ABCDEFGHIJKLMNOPQRSTUVWXYZabcdefghijklmnopqrstuvwxyz0123456789+/".toList

/-- The base64 digit for a 6-bit value. -/
def b64Char (n : Nat) : Char := b64Alphabet.getD n 'A'

/-- Character stream of the standard padded base64 encoding. -/
def b64Chars : List Nat → List Char
  | a :: b :: c :: rest =>
      b64Char (a / 4) :: b64Char (a % 4 * 16 + b / 16) ::
      b64Char (b % 16 * 4 + c / 64) :: b64Char (c % 64) :: b64Chars rest
  | [a, b] => [b64Char (a / 4), b64Char (a % 4 * 16 + b / 16), b64Char (b % 16 * 4), '=']
  | [a] => [b64Char (a / 4), b64Char (a % 4 * 16), '=', '=']
  | [] => []

/-- encoding/base64 StdEncoding.EncodeToString. -/
def base64Encode (l : List Nat) : String := String.mk (b64Chars l)

/-- UTF-8 bytes of a string, as Nats (Go's []byte(s) conversion). -/
def strBytes (s : String) : List Nat := s.toUTF8.toList.map (fun b => b.toNat)

/-! ## Go runtime model: panics and (value, error) pairs -/

/-- Result of running a Go function: a normal return, or a runtime panic
(nil pointer dereference, index out of range). -/
inductive GoResult (α : Type) where
  | ok : α → GoResult α
  | panicked : String → GoResult α
deriving DecidableEq, Repr

/-- Go slice indexing l[i]: panics when the index is out of range. -/
def goIndex {α : Type} (l : List α) (i : Nat) : GoResult α :=
  if h : i < l.length then GoResult.ok (l.get ⟨i, h⟩)
  else GoResult.panicked "runtime error: index out of range"

/-! ## HTTP model (net/http at its interface boundary) -/

/-- An outbound HTTP request as assembled by buildRequest.  `hasBody` records
whether a body was attached (http.NewRequest is called with a nil body). -/
structure HttpRequest where
  method : String
  url : String
  headers : List (String × String)
  hasBody : Bool
deriving DecidableEq, Repr

/-- An HTTP response: numeric status code, status line (resp.Status), body bytes. -/
structure HttpResponse where
  statusCode : Nat
  status : String
  body : List Nat
deriving DecidableEq, Repr

/-- Trace entry for a call to http.Client.Do: either a real request was
submitted, or Do was invoked on a nil *http.Request. -/
inductive HttpCall where
  | doReq : HttpRequest → HttpCall
  | doNil : HttpCall
deriving DecidableEq, Repr

/-- http.Client.Do, with the network as an oracle.  Invoking Do on a nil
request dereferences the nil pointer inside net/http and panics. -/
def clientDo (doRq : HttpRequest → Except String HttpResponse) :
    Option HttpRequest → GoResult (Except String HttpResponse)
  | none => GoResult.panicked "runtime error: invalid memory address or nil pointer dereference"
  | some r => GoResult.ok (doRq r)

/-! ## netstorage.go -/

/-- The Netstorage credential struct (netstorage.go).  The http.Client field
is modelled separately as the `doRq` oracle parameter of each operation. -/
structure Netstorage where
  Hostname : String
  Keyname : String
  Key : String
  Ssl : String
deriving DecidableEq, Repr

/-- One parsed entry of a stat/dir XML response (netstorage.go StatEntry).
The Go field `Type` is rendered `ftype` because `Type` is reserved in Lean. -/
structure StatEntry where
  ftype : String
  Name : String
  Mtime : Nat
  Size : Nat
  MD5 : String
  Target : String
deriving DecidableEq, Repr

/-- A parsed stat/dir XML response (netstorage.go StatData). -/
structure StatData where
  Dir : String
  Files : List StatEntry
deriving DecidableEq, Repr

/-- A parsed du XML response (netstorage.go DuData). -/
structure DuData where
  Dir : String
  duFiles : Nat
  duBytes : Nat
deriving DecidableEq, Repr

/-- NewNetstorage (netstorage.go): panics when hostname, keyname or key is
empty; "s" selects https, "" selects http. -/
def NewNetstorage (hostname keyname key : String) (ssl : Bool) : GoResult Netstorage :=
  if hostname = "" || keyname = "" || key = "" then
    GoResult.panicked "[NetstorageError] You should input netstorage hostname, keyname and key"
  else
    GoResult.ok { Hostname := hostname, Keyname := keyname, Key := key,
                  Ssl := if ssl then "s" else "" }

/-- Model of Go strings.HasPrefix, executable by kernel reduction. -/
def hasPfx (s p : String) : Bool := p.toList.isPrefixOf s.toList

/-- Model of Go strings.HasSuffix, executable by kernel reduction. -/
def hasSfx (s p : String) : Bool := p.toList.isSuffixOf s.toList

/-- readBody (netstorage.go): reads the body of a response.  Reading from a
nil *http.Response dereferences a nil pointer and panics. -/
def readBody : Option HttpResponse → GoResult (List Nat)
  | none => GoResult.panicked "runtime error: invalid memory address or nil pointer dereference"
  | some r => GoResult.ok r.body

/-- buildRequest (netstorage.go): checks that the path is absolute and
parseable, builds the canonical action and auth-data strings, signs them with
HMAC-SHA256 under the shared secret, and assembles the request with its five
headers.  `urlParse` models url.Parse followed by RequestURI (none = parse
error); `now` models time.Now().Unix() and `nonce` models rand.Intn(100000). -/
def Netstorage.buildRequest (ns : Netstorage) (urlParse : String → Option String)
    (action method nsPath : String) (now nonce : Nat) : Except String HttpRequest :=
  match urlParse nsPath, hasPfx nsPath "/" with
  | some uri, true =>
      let acsAction := "version=1&action=" ++ action
      let acsAuthData := "5, 0.0.0.0, 0.0.0.0, " ++ toString now ++ ", " ++
                         toString nonce ++ ", " ++ ns.Keyname
      let signString := uri ++ "\nx-akamai-acs-action:" ++ acsAction ++ "\n"
      let acsAuthSign := base64Encode (hmacSha256 (strBytes ns.Key)
                           (strBytes (acsAuthData ++ signString)))
      Except.ok {
        method := method,
        url := "http" ++ ns.Ssl ++ "://" ++ ns.Hostname ++ uri,
        headers := [("X-Akamai-ACS-Action", acsAction),
                    ("X-Akamai-ACS-Auth-Data", acsAuthData),
                    ("X-Akamai-ACS-Auth-Sign", acsAuthSign),
                    ("Accept-Encoding", "identity"),
                    ("User-Agent", "NetStorageKit-Golang")],
        hasBody := false }
  | _, _ => Except.error ("[Netstorage Error] Invalid netstorage path: " ++ nsPath)

/-- submitRequest_EmptyBody (netstorage.go) exactly as written: the branch
condition on the buildRequest error is `err != nil`, so the HTTP exchange
(and the 2xx status classification after it) runs only when buildRequest
FAILED — with a nil request — while a successful buildRequest falls into
the else branch and returns (nil, nil) without any exchange.  The first
component is the trace of http.Client.Do invocations. -/
def Netstorage.submitRequest_EmptyBody (ns : Netstorage) (urlParse : String → Option String)
    (doRq : HttpRequest → Except String HttpResponse) (action method nsPath : String)
    (now nonce : Nat) : List HttpCall × GoResult (Option HttpResponse × Option String) :=
  match ns.buildRequest urlParse action method nsPath now nonce with
  | Except.error _ =>
      match clientDo doRq none with
      | GoResult.panicked m => ([HttpCall.doNil], GoResult.panicked m)
      | GoResult.ok (Except.error e) => ([HttpCall.doNil], GoResult.ok (none, some e))
      | GoResult.ok (Except.ok response) =>
          if response.statusCode / 100 ≠ 2 then
            ([HttpCall.doNil], GoResult.ok (some response, some response.status))
          else
            ([HttpCall.doNil], GoResult.ok (some response, none))
  | Except.ok _ => ([], GoResult.ok (none, none))

/-- submitRequest_GetBody (netstorage.go): submits via submitRequest_EmptyBody
and, when err is nil, reads the response body (a nil response panics). -/
def Netstorage.submitRequest_GetBody (ns : Netstorage) (urlParse : String → Option String)
    (doRq : HttpRequest → Except String HttpResponse) (action method nsPath : String)
    (now nonce : Nat) : List HttpCall × GoResult (Option (List Nat) × Option String) :=
  let r := ns.submitRequest_EmptyBody urlParse doRq action method nsPath now nonce
  match r.2 with
  | GoResult.panicked m => (r.1, GoResult.panicked m)
  | GoResult.ok (response, none) =>
      match readBody response with
      | GoResult.panicked m => (r.1, GoResult.panicked m)
      | GoResult.ok b => (r.1, GoResult.ok (some b, none))
  | GoResult.ok (_, some e) => (r.1, GoResult.ok (none, some e))

/-- Du (netstorage.go): disk usage query; `xmlDu` models xml.Unmarshal into DuData. -/
def Netstorage.Du (ns : Netstorage) (urlParse : String → Option String)
    (doRq : HttpRequest → Except String HttpResponse) (xmlDu : List Nat → Except String DuData)
    (nsPath : String) (now nonce : Nat) :
    List HttpCall × GoResult (Option DuData × Option String) :=
  let r := ns.submitRequest_GetBody urlParse doRq "du&format=xml" "GET" nsPath now nonce
  match r.2 with
  | GoResult.panicked m => (r.1, GoResult.panicked m)
  | GoResult.ok (some body, none) =>
      match xmlDu body with
      | Except.ok du => (r.1, GoResult.ok (some du, none))
      | Except.error e => (r.1, GoResult.ok (none, some e))
  | GoResult.ok (_, e) => (r.1, GoResult.ok (none, e))

/-- Stat (netstorage.go): object stat query; `xmlStat` models xml.Unmarshal. -/
def Netstorage.Stat (ns : Netstorage) (urlParse : String → Option String)
    (doRq : HttpRequest → Except String HttpResponse) (xmlStat : List Nat → Except String StatData)
    (nsPath : String) (now nonce : Nat) :
    List HttpCall × GoResult (Option StatData × Option String) :=
  let r := ns.submitRequest_GetBody urlParse doRq "stat&format=xml" "GET" nsPath now nonce
  match r.2 with
  | GoResult.panicked m => (r.1, GoResult.panicked m)
  | GoResult.ok (some body, none) =>
      match xmlStat body with
      | Except.ok s => (r.1, GoResult.ok (some s, none))
      | Except.error e => (r.1, GoResult.ok (none, some e))
  | GoResult.ok (_, e) => (r.1, GoResult.ok (none, e))

/-- Dir (netstorage.go): directory listing; same shape as Stat. -/
def Netstorage.Dir (ns : Netstorage) (urlParse : String → Option String)
    (doRq : HttpRequest → Except String HttpResponse) (xmlStat : List Nat → Except String StatData)
    (nsPath : String) (now nonce : Nat) :
    List HttpCall × GoResult (Option StatData × Option String) :=
  let r := ns.submitRequest_GetBody urlParse doRq "dir&format=xml" "GET" nsPath now nonce
  match r.2 with
  | GoResult.panicked m => (r.1, GoResult.panicked m)
  | GoResult.ok (some body, none) =>
      match xmlStat body with
      | Except.ok s => (r.1, GoResult.ok (some s, none))
      | Except.error e => (r.1, GoResult.ok (none, some e))
  | GoResult.ok (_, e) => (r.1, GoResult.ok (none, e))

/-- Mkdir (netstorage.go): returns only the error of the exchange. -/
def Netstorage.Mkdir (ns : Netstorage) (urlParse : String → Option String)
    (doRq : HttpRequest → Except String HttpResponse) (nsPath : String)
    (now nonce : Nat) : List HttpCall × GoResult (Option String) :=
  let r := ns.submitRequest_EmptyBody urlParse doRq "mkdir" "POST" nsPath now nonce
  (r.1, match r.2 with
        | GoResult.panicked m => GoResult.panicked m
        | GoResult.ok p => GoResult.ok p.2)

/-- Rmdir (netstorage.go). -/
def Netstorage.Rmdir (ns : Netstorage) (urlParse : String → Option String)
    (doRq : HttpRequest → Except String HttpResponse) (nsPath : String)
    (now nonce : Nat) : List HttpCall × GoResult (Option String) :=
  let r := ns.submitRequest_EmptyBody urlParse doRq "rmdir" "POST" nsPath now nonce
  (r.1, match r.2 with
        | GoResult.panicked m => GoResult.panicked m
        | GoResult.ok p => GoResult.ok p.2)

/-- Mtime (netstorage.go): mtime is Go int64, modelled as Int. -/
def Netstorage.Mtime (ns : Netstorage) (urlParse : String → Option String)
    (doRq : HttpRequest → Except String HttpResponse) (nsPath : String) (mtime : Int)
    (now nonce : Nat) : List HttpCall × GoResult (Option String) :=
  let r := ns.submitRequest_EmptyBody urlParse doRq
             ("mtime&format=xml&mtime=" ++ toString mtime) "POST" nsPath now nonce
  (r.1, match r.2 with
        | GoResult.panicked m => GoResult.panicked m
        | GoResult.ok p => GoResult.ok p.2)

/-- Delete (netstorage.go). -/
def Netstorage.Delete (ns : Netstorage) (urlParse : String → Option String)
    (doRq : HttpRequest → Except String HttpResponse) (nsPath : String)
    (now nonce : Nat) : List HttpCall × GoResult (Option String) :=
  let r := ns.submitRequest_EmptyBody urlParse doRq "delete" "POST" nsPath now nonce
  (r.1, match r.2 with
        | GoResult.panicked m => GoResult.panicked m
        | GoResult.ok p => GoResult.ok p.2)

/-- QuickDelete (netstorage.go): recursive delete with the literal
confirmation token required by the protocol. -/
def Netstorage.QuickDelete (ns : Netstorage) (urlParse : String → Option String)
    (doRq : HttpRequest → Except String HttpResponse) (nsPath : String)
    (now nonce : Nat) : List HttpCall × GoResult (Option String) :=
  let r := ns.submitRequest_EmptyBody urlParse doRq
             "quick-delete&quick-delete=imreallyreallysure" "POST" nsPath now nonce
  (r.1, match r.2 with
        | GoResult.panicked m => GoResult.panicked m
        | GoResult.ok p => GoResult.ok p.2)

/-- Rename (netstorage.go): `queryEscape` models url.QueryEscape. -/
def Netstorage.Rename (ns : Netstorage) (urlParse : String → Option String)
    (doRq : HttpRequest → Except String HttpResponse) (queryEscape : String → String)
    (nsTarget nsDestination : String) (now nonce : Nat) :
    List HttpCall × GoResult (Option String) :=
  let r := ns.submitRequest_EmptyBody urlParse doRq
             ("rename&destination=" ++ queryEscape nsDestination) "POST" nsTarget now nonce
  (r.1, match r.2 with
        | GoResult.panicked m => GoResult.panicked m
        | GoResult.ok p => GoResult.ok p.2)

/-- Symlink (netstorage.go). -/
def Netstorage.Symlink (ns : Netstorage) (urlParse : String → Option String)
    (doRq : HttpRequest → Except String HttpResponse) (queryEscape : String → String)
    (nsTarget nsDestination : String) (now nonce : Nat) :
    List HttpCall × GoResult (Option String) :=
  let r := ns.submitRequest_EmptyBody urlParse doRq
             ("symlink&target=" ++ queryEscape nsTarget) "POST" nsDestination now nonce
  (r.1, match r.2 with
        | GoResult.panicked m => GoResult.panicked m
        | GoResult.ok p => GoResult.ok p.2)

/-- Read (netstorage.go) exactly as written: the directory check runs first
and fails fast with no exchange; then the branch condition on the
buildRequest error is again `err != nil`, so a valid path falls into the
else branch and returns (nil, nil) with no exchange, while an invalid path
invokes Client.Do on a nil request. -/
def Netstorage.Read (ns : Netstorage) (urlParse : String → Option String)
    (doRq : HttpRequest → Except String HttpResponse) (path : String)
    (now nonce : Nat) : List HttpCall × GoResult (Option HttpResponse × Option String) :=
  if hasSfx path "/" then
    ([], GoResult.ok (none,
      some ("[NetstorageError] Nestorage download path shouldn't be a directory: " ++ path)))
  else
    match ns.buildRequest urlParse "download" "GET" path now nonce with
    | Except.error _ =>
        match clientDo doRq none with
        | GoResult.panicked m => ([HttpCall.doNil], GoResult.panicked m)
        | GoResult.ok (Except.ok r) => ([HttpCall.doNil], GoResult.ok (some r, none))
        | GoResult.ok (Except.error e) => ([HttpCall.doNil], GoResult.ok (none, some e))
    | Except.ok _ => ([], GoResult.ok (none, none))

/-- Write (netstorage.go) exactly as written: the branch condition on the
buildRequest error is `err != nil`, so a valid destination falls into the
else branch and returns the nil error without attaching the source body or
performing any exchange, while an invalid destination assigns request.Body
on a nil request and panics.  `source` is the caller's stream content. -/
def Netstorage.Write (ns : Netstorage) (urlParse : String → Option String)
    (_doRq : HttpRequest → Except String HttpResponse) (_source : List Nat)
    (destination : String) (now nonce : Nat) : List HttpCall × GoResult (Option String) :=
  match ns.buildRequest urlParse "upload" "PUT" destination now nonce with
  | Except.error _ =>
      ([], GoResult.panicked "runtime error: invalid memory address or nil pointer dereference")
  | Except.ok _ => ([], GoResult.ok none)

/-! ## driver.go: the offset-skipping read adapter (readFrom) -/

/-- State of a readFrom value (driver.go): the wrapped stream is a byte list
`content` with a read position `pos`; `o` is the requested skip offset and
`seen` the bytes skipped so far (both int64 in Go, non-negative here). -/
structure RFState where
  content : List Nat
  pos : Nat
  o : Nat
  seen : Nat
deriving DecidableEq, Repr

/-- One Read call on the wrapped stream: at end of data it returns (0, io.EOF);
otherwise it delivers up to n bytes from the current position and advances.
This is the canonical well-behaved io.Reader over fixed content. -/
def streamRead (st : RFState) (n : Nat) : Nat × List Nat × Option String × RFState :=
  if st.content.length ≤ st.pos then (0, [], some "EOF", st)
  else
    let bytes := (st.content.drop st.pos).take n
    (bytes.length, bytes, none, { st with pos := st.pos + bytes.length })

/-- Outcome of the skip loop in readFrom.Read: either the loop returned early
(carrying the Go return values n and err), or skipping completed and the
call falls through to the pass-through read. -/
inductive SkipOut where
  | returned : Nat → Option String → RFState → SkipOut
  | through : RFState → SkipOut
deriving DecidableEq, Repr

/-- The skip loop of readFrom.Read (driver.go): while seen < o, read a chunk
of min(o - seen, 16384) bytes from the wrapped stream; on a stream error
return (int(r.seen), err); on a zero-length read return (0, nil); otherwise
add the chunk length to seen and continue.  The wrapped-stream read is the
body of streamRead, inlined so the recursion is visibly well-founded. -/
def skipLoop (content : List Nat) (pos o seen : Nat) : SkipOut :=
  if hlt : seen < o then
    let skip := o - seen
    let bufLen := if skip > 16384 then 16384 else skip
    if content.length ≤ pos then
      SkipOut.returned seen (some "EOF") ⟨content, pos, o, seen⟩
    else
      let bytes := (content.drop pos).take bufLen
      if hz : bytes.length = 0 then
        SkipOut.returned 0 none ⟨content, pos + bytes.length, o, seen + bytes.length⟩
      else
        skipLoop content (pos + bytes.length) o (seen + bytes.length)
  else SkipOut.through ⟨content, pos, o, seen⟩
termination_by o - seen
decreasing_by
  unfold bytes bufLen skip at hz
  omega

/-- Return value of readFrom.Read: the Go return count n, the bytes actually
written into the caller's buffer p, the error, and the updated state. -/
structure ReadOut where
  n : Nat
  delivered : List Nat
  err : Option String
  st : RFState
deriving DecidableEq, Repr

/-- readFrom.Read (driver.go): run the skip loop, then pass the read through
to the wrapped stream.  `plen` is len(p).  Note that when the skip loop
returns early on a stream error, the Go code reports n = int(r.seen) even
though nothing was written into p. -/
def readFromRead (st : RFState) (plen : Nat) : ReadOut :=
  match skipLoop st.content st.pos st.o st.seen with
  | SkipOut.returned n err st1 => ⟨n, [], err, st1⟩
  | SkipOut.through st1 =>
      let r := streamRead st1 plen
      ⟨r.1, r.2.1, r.2.2.1, r.2.2.2⟩

/-- Bytes a contract-respecting io.Reader caller consumes from one Read call:
the first n bytes of the buffer p, whose unwritten remainder is zero-filled
(Go buffers are zero-initialised and readFrom never writes past the
delivered bytes). -/
def consume (out : ReadOut) (plen : Nat) : List Nat :=
  (out.delivered ++ List.replicate plen 0).take out.n

/-- Reading through readFrom to exhaustion, as ioutil.ReadAll does: call Read
with a fresh buffer of length plen, consume the first n bytes, stop as soon
as an error (io.EOF included) is reported.  `fuel` bounds the number of
Read calls. -/
def readToExhaust (fuel : Nat) (st : RFState) (plen : Nat) : List Nat × Option String :=
  match fuel with
  | 0 => ([], none)
  | Nat.succ f =>
      let out := readFromRead st plen
      let c := consume out plen
      match out.err with
      | some e => (c, some e)
      | none =>
          let r := readToExhaust f out.st plen
          (c ++ r.1, r.2)

/-! ## driver.go: the staged write session (LocalTempFileWriter) -/

/-- Observable state of a write session's temporary file: whether the file
still exists on disk, whether the handle is open, the handle's position and
the file's content. -/
structure TempFileState where
  onDisk : Bool
  isOpen : Bool
  pos : Nat
  content : List Nat
deriving DecidableEq, Repr

/-- LocalTempFileWriter.Commit (driver.go): Seek(0, 0) rewinds the handle,
ns.Write uploads the file content from the current position (the whole
file), the deferred function closes the handle and removes the file on
every return path, and the upload's error (none on success) is returned
unchanged.  `upload` is the remote write collaborator, returning the error
outcome of uploading the given bytes. -/
def LocalTempFileWriter.Commit (upload : List Nat → Option String)
    (t : TempFileState) : Option String × TempFileState :=
  let t1 : TempFileState := { t with pos := 0 }
  let err := upload (t1.content.drop t1.pos)
  let t2 : TempFileState := { t1 with isOpen := false, onDisk := false }
  (err, t2)

/-! ## driver.go: Move and moveFromLocal -/

/-- Trace entry for a collaborator call made by Driver.Move. -/
inductive MoveEvent where
  | localMove : String → String → MoveEvent
  | osOpen : String → MoveEvent
  | nsWrite : String → MoveEvent
  | osRemove : String → MoveEvent
  | nsRename : String → String → MoveEvent
deriving DecidableEq, Repr

/-- moveFromLocal (driver.go): open the local source (failure returns the
open error), write it to the remote destination via ns.Write (failure
returns that error), then call os.Remove on `dest` — the destination name,
not the source — ignoring its result, and return nil.  `openErr` and
`writeErr` are the outcomes of the two collaborator calls. -/
def Driver.moveFromLocal (openErr writeErr : Option String)
    (source dest : String) : List MoveEvent × Option String :=
  match openErr with
  | some e => ([MoveEvent.osOpen source], some e)
  | none =>
      match writeErr with
      | some e => ([MoveEvent.osOpen source, MoveEvent.nsWrite dest], some e)
      | none => ([MoveEvent.osOpen source, MoveEvent.nsWrite dest,
                  MoveEvent.osRemove dest], none)

/-- Driver.Move (driver.go): classify both paths with GetNameFunc, then
switch on the two locality flags — local/local delegates to the local
backend's Move, local/remote goes through moveFromLocal, remote/local
returns the explicit unsupported error with no collaborator call, and
remote/remote delegates to ns.Rename.  The oracles give each collaborator
call's error outcome; the first component is the trace of calls made. -/
def Driver.Move (getName : String → String × Bool)
    (localMoveErr openErr writeErr renameErr : Option String)
    (sourcePath destPath : String) : List MoveEvent × Option String :=
  let ms := getName sourcePath
  let md := getName destPath
  let mappedSource := ms.1
  let sourceLocal := ms.2
  let mappedDest := md.1
  let destLocal := md.2
  if sourceLocal && destLocal then
    ([MoveEvent.localMove mappedSource mappedDest], localMoveErr)
  else if sourceLocal && !destLocal then
    Driver.moveFromLocal openErr writeErr mappedSource mappedDest
  else if !sourceLocal && destLocal then
    ([], some "Cannot move remote file to local")
  else
    ([MoveEvent.nsRename mappedSource mappedDest], renameErr)

/-! ## driver.go: Stat (remote branch) -/

/-- The fields of storagedriver.FileInfoInternal that Driver.Stat fills in. -/
structure FileInfoFields where
  Path : String
  Size : Int
  ModTime : Nat
  IsDir : Bool
deriving DecidableEq, Repr

/-- The remote branch of Driver.Stat (driver.go): given the (StatData, error)
pair returned by ns.Stat, propagate a non-nil error; otherwise index
st.Files[0] with Go slice semantics (no bounds check in the source) and
build the FileInfo — path.Join of the directory and the entry name
(`pathJoin` models path.Join), the entry's mtime, and either the size for
kind "file" or the directory flag otherwise. -/
def Driver.statRemote (pathJoin : String → String → String)
    (nsStat : Option StatData × Option String) :
    GoResult (Option FileInfoFields × Option String) :=
  match nsStat with
  | (_, some e) => GoResult.ok (none, some e)
  | (stOpt, none) =>
      match stOpt with
      | none => GoResult.panicked "runtime error: invalid memory address or nil pointer dereference"
      | some st =>
          match goIndex st.Files 0 with
          | GoResult.panicked m => GoResult.panicked m
          | GoResult.ok f0 =>
              if f0.ftype = "file" then
                GoResult.ok (some { Path := pathJoin st.Dir f0.Name, Size := Int.ofNat f0.Size,
                                    ModTime := f0.Mtime, IsDir := false }, none)
              else
                GoResult.ok (some { Path := pathJoin st.Dir f0.Name, Size := 0,
                                    ModTime := f0.Mtime, IsDir := true }, none)

/-! ## driver.go: the factory (nsDriverFactory.Create) -/

/-- A Go interface value held in the configuration parameter bag
(map[string]interface{}): a string, a bool, a nil interface, a nested map,
or some other value.  The nested map is an association list (Go map keys
are unique). -/
inductive PVal where
  | pstr : String → PVal
  | pbool : Bool → PVal
  | pnull : PVal
  | pmap : List (String × PVal) → PVal
  | pint : Int → PVal

/-- fmt.Sprint of a parameter value, at the fmt package's boundary. -/
def sprint : PVal → String
  | PVal.pstr s => s
  | PVal.pbool true => "true"
  | PVal.pbool false => "false"
  | PVal.pnull => "<nil>"
  | PVal.pmap _ => "map[]"
  | PVal.pint i => toString i

/-- strconv.ParseBool: the exact set of accepted literals. -/
def parseBool (s : String) : Option Bool :=
  if s = "1" || s = "t" || s = "T" || s = "true" || s = "TRUE" || s = "True" then some true
  else if s = "0" || s = "f" || s = "F" || s = "false" || s = "FALSE" || s = "False" then some false
  else none

/-- Map lookup parameters[k] on the association-list model of a Go map. -/
def lookupP (ps : List (String × PVal)) (k : String) : Option PVal :=
  match ps with
  | [] => none
  | (k1, v) :: rest => if k1 = k then some v else lookupP rest k

/-- The observable outcome of driver construction: the Netstorage credentials
that were installed (none when the nil parameter bag skipped construction)
and whether a local driver instance was installed. -/
structure DriverM where
  ns : Option Netstorage
  localSet : Bool
deriving DecidableEq, Repr

/-- nsDriverFactory.Create (driver.go): when the parameter bag is nil every
check is skipped and a driver with no Netstorage client is returned with a
nil error.  Otherwise hostname, keyname and key must be present (fetched
via fmt.Sprint), ssl must be absent, a bool, or a string strconv.ParseBool
accepts, NewNetstorage is invoked (panicking on empty strings), and a
localDriver block that is a map must have exactly one entry, whose factory
result is assigned without checking its error.  `localFactory` models
factory.Create for the nested local driver. -/
def nsDriverFactory.Create
    (localFactory : String → Option (List (String × PVal)) → Except String Unit)
    (parameters : Option (List (String × PVal))) : GoResult (Except String DriverM) :=
  match parameters with
  | none => GoResult.ok (Except.ok { ns := none, localSet := false })
  | some ps =>
      match lookupP ps "hostname" with
      | none => GoResult.ok (Except.error "hostname required")
      | some hv =>
      match lookupP ps "keyname" with
      | none => GoResult.ok (Except.error "keyname required")
      | some knv =>
      match lookupP ps "key" with
      | none => GoResult.ok (Except.error "key required")
      | some kv =>
      let sslRes : Except String Bool :=
        match lookupP ps "ssl" with
        | none => Except.ok false
        | some (PVal.pbool b) => Except.ok b
        | some (PVal.pstr s) =>
            match parseBool s with
            | some b => Except.ok b
            | none => Except.error ("invalid ssl value " ++ s)
        | some v => Except.error ("invalid ssl value " ++ sprint v)
      match sslRes with
      | Except.error e => GoResult.ok (Except.error e)
      | Except.ok ssl =>
      match NewNetstorage (sprint hv) (sprint knv) (sprint kv) ssl with
      | GoResult.panicked m => GoResult.panicked m
      | GoResult.ok nsv =>
      match lookupP ps "localDriver" with
      | some (PVal.pmap driverBlock) =>
          if driverBlock.length = 1 then
            match driverBlock with
            | (dn, dopts) :: _ =>
                match dopts with
                | PVal.pnull =>
                    GoResult.ok (Except.ok ⟨some nsv, (localFactory dn none).toBool⟩)
                | PVal.pmap o =>
                    GoResult.ok (Except.ok ⟨some nsv, (localFactory dn (some o)).toBool⟩)
                | _ => GoResult.ok (Except.error "Invalid local driver options")
            | [] => GoResult.ok (Except.ok { ns := some nsv, localSet := false })
          else GoResult.ok (Except.error "There can be only one local driver")
      | some _ => GoResult.ok (Except.ok { ns := some nsv, localSet := false })
      | none => GoResult.ok (Except.ok { ns := some nsv, localSet := false })

/-! ## Specification-side definition for the signature (refinement target) -/

/-- Formalisation of the specification sentence for the request signature,
written from the spec's words for comparison against buildRequest:
signature = base64(HMAC-SHA256(key = shared secret, message = authData +
path + "\n" + "x-akamai-acs-action:" + authAction + "\n")), with
authAction = "version=1&action=" + action and authData =
"5, 0.0.0.0, 0.0.0.0, (unix-seconds), (nonce), (key-identifier)". -/
def specSignature (key keyname path action : String) (now nonce : Nat) : String :=
  base64Encode (hmacSha256 (strBytes key)
    (strBytes (("5, 0.0.0.0, 0.0.0.0, " ++ toString now ++ ", " ++ toString nonce ++
                ", " ++ keyname) ++
               (path ++ "\n" ++ ("x-akamai-acs-action:" ++
                (("version=1&action=" ++ action) ++ "\n"))))))

/-! ## Configuration-validation predicates (for the construction claims) -/

/-- True when hostname, keyname or key is absent from the parameter bag. -/
def missingCreds (ps : List (String × PVal)) : Bool :=
  (lookupP ps "hostname").isNone || (lookupP ps "keyname").isNone || (lookupP ps "key").isNone

/-- True when ssl is present but neither a bool nor a string strconv.ParseBool accepts. -/
def sslBad (ps : List (String × PVal)) : Bool :=
  match lookupP ps "ssl" with
  | none => false
  | some (PVal.pbool _) => false
  | some (PVal.pstr s) => (parseBool s).isNone
  | some _ => true

/-- True when hostname, keyname and key are present and their fmt.Sprint
values are all non-empty (so NewNetstorage does not panic). -/
def credsNonEmpty (ps : List (String × PVal)) : Bool :=
  match lookupP ps "hostname", lookupP ps "keyname", lookupP ps "key" with
  | some a, some b, some c => !(sprint a = "" || sprint b = "" || sprint c = "")
  | _, _, _ => false

/-- True when the localDriver block is a map with more than one entry. -/
def multiLocal (ps : List (String × PVal)) : Bool :=
  match lookupP ps "localDriver" with
  | some (PVal.pmap db) => 1 < db.length
  | _ => false

/-- A parameter bag that must make nsDriverFactory.Create return an error:
a credential key is absent, or ssl is malformed, or (with non-empty
credentials present, so that NewNetstorage does not panic first) more
than one local driver is configured. -/
def badConfig (ps : List (String × PVal)) : Bool :=
  missingCreds ps || sslBad ps || (credsNonEmpty ps && multiLocal ps)

/-! ## Concrete fixtures used by the closed theorems -/

/-- A concrete credential set. -/
def nsFix : Netstorage :=
  { Hostname := "example-nsu.akamaihd.net", Keyname := "keyname1", Key := "secret1", Ssl := "" }

/-- url.Parse model mapping every path to itself (the already-canonical case). -/
def upId : String → Option String := fun s => some s

/-- A network oracle answering 404 Not Found to every request: if an
exchange were performed, a failure would have to surface. -/
def do404 : HttpRequest → Except String HttpResponse :=
  fun _ => Except.ok { statusCode := 404, status := "404 Not Found", body := [] }

/-- A path classifier marking "/src1" local and everything else remote. -/
def gnFix : String → String × Bool := fun p => (p, p == "/src1")

/-- A local-driver factory oracle that always fails. -/
def lfFix : String → Option (List (String × PVal)) → Except String Unit :=
  fun _ _ => Except.error "unknown local driver"

/-! ## Helper lemma for string associativity -/

/-- Merging the literal "\n" into the following header-name literal. -/
theorem append_nx (r : String) :
    "\nx-akamai-acs-action:" ++ r = "\n" ++ ("x-akamai-acs-action:" ++ r) := by
  rw [← String.append_assoc]
  rfl

/-! ## Claim theorems -/

/-- C1 (code bug): the spec says every remote operation performs its HTTP
exchange and succeeds exactly for a 2xx status, failing with the status
line otherwise.  The code's error check in submitRequest_EmptyBody is
inverted: against an oracle that answers 404 Not Found to every request,
Mkdir on the valid path "/dir1" issues no HTTP call at all (empty trace)
and returns a nil error, and submitRequest_EmptyBody returns (nil, nil)
without reaching its status-classification code. -/
theorem c1_remote_ops_no_exchange :
    nsFix.Mkdir upId do404 "/dir1" 1700000000 42 = ([], GoResult.ok none) ∧
    nsFix.submitRequest_EmptyBody upId do404 "mkdir" "POST" "/dir1" 1700000000 42 =
      ([], GoResult.ok (none, none)) :=
  ⟨rfl, rfl⟩

/-- C2 (code bug): the spec says write issues a PUT with action upload,
attaching the source stream, and performs the exchange.  The code's error
check in Write is inverted: for the valid destination "/object1" it issues
no request (empty trace), never attaches the source, and returns nil. -/
theorem c2_write_no_upload :
    nsFix.Write upId do404 [1, 2, 3] "/object1" 1700000000 42 = ([], GoResult.ok none) := rfl

/-- C3 (code bug): in the local-to-remote cell of the move matrix the claim
requires removing the local SOURCE file after the remote write, but
moveFromLocal calls os.Remove on the destination name: with "/src1"
classified local and "/dst1" remote, the trace ends in osRemove "/dst1"
rather than osRemove "/src1", so the local source is never removed. -/
theorem c3_move_removes_destination :
    Driver.Move gnFix none none none none "/src1" "/dst1" =
      ([MoveEvent.osOpen "/src1", MoveEvent.nsWrite "/dst1", MoveEvent.osRemove "/dst1"], none) := rfl

/-- C4 (code bug): the claim says that for offset O greater than the content
length L, reading to exhaustion yields an empty result.  Because the skip
loop returns n = int(r.seen) when the stream is exhausted mid-skip, a
contract-respecting caller (ioutil.ReadAll) consumes the first n bytes of
its untouched buffer: for content [7] (L = 1) and offset 2, reading yields
the one garbage byte [0], not the empty list. -/
theorem c4_offset_overrun_garbage :
    readToExhaust 3 ⟨[7], 0, 2, 0⟩ 4 = ([0], some "EOF") := by
  simp [readToExhaust, readFromRead, skipLoop, streamRead, consume]

/-- C5 (confirmed): for every temporary-file state and every outcome of the
commit upload (success or any error), after Commit the temporary file is
closed and removed, and the upload outcome — computed over the full file
content thanks to the initial rewind — is returned unchanged. -/
theorem c5_commit_cleanup (upload : List Nat → Option String) (t : TempFileState) :
    (LocalTempFileWriter.Commit upload t).2.onDisk = false ∧
    (LocalTempFileWriter.Commit upload t).2.isOpen = false ∧
    (LocalTempFileWriter.Commit upload t).1 = upload t.content := by
  refine ⟨rfl, rfl, ?_⟩
  simp [LocalTempFileWriter.Commit]

/-- C6 (confirmed): for every fixed key, path, action, timestamp and nonce
(and any successful URL normalisation), buildRequest emits exactly one
signature header whose value is specSignature — the spec's formula
base64(HMAC-SHA256(key, authData ++ path ++ "\n" ++ "x-akamai-acs-action:"
++ "version=1&action=" ++ action ++ "\n")) — a function of precisely those
inputs, so two signing runs with identical inputs agree byte for byte. -/
theorem c6_signature_formula (urlParse : String → Option String) (ns : Netstorage)
    (action method p q : String) (now nonce : Nat)
    (hp : hasPfx p "/" = true) (hq : urlParse p = some q) :
    ns.buildRequest urlParse action method p now nonce = Except.ok
      { method := method,
        url := "http" ++ ns.Ssl ++ "://" ++ ns.Hostname ++ q,
        headers := [("X-Akamai-ACS-Action", "version=1&action=" ++ action),
                    ("X-Akamai-ACS-Auth-Data",
                      "5, 0.0.0.0, 0.0.0.0, " ++ toString now ++ ", " ++ toString nonce ++
                      ", " ++ ns.Keyname),
                    ("X-Akamai-ACS-Auth-Sign", specSignature ns.Key ns.Keyname q action now nonce),
                    ("Accept-Encoding", "identity"),
                    ("User-Agent", "NetStorageKit-Golang")],
        hasBody := false } := by
  simp only [Netstorage.buildRequest, hq, hp, specSignature]
  simp only [String.append_assoc, append_nx]

/-- C6 witness: the signature equation at concrete inputs. -/
theorem c6_signature_formula_witness :
    nsFix.buildRequest upId "upload" "PUT" "/ab" 7 9 = Except.ok
      { method := "PUT",
        url := "http" ++ nsFix.Ssl ++ "://" ++ nsFix.Hostname ++ "/ab",
        headers := [("X-Akamai-ACS-Action", "version=1&action=" ++ "upload"),
                    ("X-Akamai-ACS-Auth-Data",
                      "5, 0.0.0.0, 0.0.0.0, " ++ toString 7 ++ ", " ++ toString 9 ++
                      ", " ++ nsFix.Keyname),
                    ("X-Akamai-ACS-Auth-Sign", specSignature nsFix.Key nsFix.Keyname "/ab" "upload" 7 9),
                    ("Accept-Encoding", "identity"),
                    ("User-Agent", "NetStorageKit-Golang")],
        hasBody := false } :=
  c6_signature_formula upId nsFix "upload" "PUT" "/ab" "/ab" 7 9 rfl rfl

/-- C7 (confirmed): buildRequest fails with the invalid-path error for every
path without a leading separator; Read fails fast — empty exchange trace —
with the invalid-path error for every path ending in a separator; and
paths passing these checks (leading separator present, trailing separator
absent, URL parse successful) proceed with no invalid-path error. -/
theorem c7_invalid_path_checks (urlParse : String → Option String)
    (doRq : HttpRequest → Except String HttpResponse) (ns : Netstorage)
    (action method p : String) (now nonce : Nat) :
    (hasPfx p "/" = false →
      ns.buildRequest urlParse action method p now nonce =
        Except.error ("[Netstorage Error] Invalid netstorage path: " ++ p)) ∧
    (hasSfx p "/" = true →
      ns.Read urlParse doRq p now nonce = ([], GoResult.ok (none,
        some ("[NetstorageError] Nestorage download path shouldn't be a directory: " ++ p)))) ∧
    (∀ q, hasPfx p "/" = true → urlParse p = some q →
      ∃ r, ns.buildRequest urlParse action method p now nonce = Except.ok r) ∧
    (hasPfx p "/" = true → hasSfx p "/" = false → ∀ q, urlParse p = some q →
      ns.Read urlParse doRq p now nonce = ([], GoResult.ok (none, none))) := by
  refine ⟨?_, ?_, ?_, ?_⟩
  · intro h
    rcases hu : urlParse p with _ | u <;> simp [Netstorage.buildRequest, hu, h]
  · intro h
    simp [Netstorage.Read, h]
  · intro q hp hq
    simp only [Netstorage.buildRequest, hp, hq]
    exact ⟨_, rfl⟩
  · intro hp hne q hq
    simp [Netstorage.Read, hne, Netstorage.buildRequest, hp, hq]

/-- C7 witness: each clause exercised at a concrete path. -/
theorem c7_invalid_path_checks_witness :
    nsFix.buildRequest upId "mkdir" "POST" "abc" 5 6 =
      Except.error "[Netstorage Error] Invalid netstorage path: abc" ∧
    nsFix.Read upId do404 "/d/" 5 6 = ([], GoResult.ok (none,
      some "[NetstorageError] Nestorage download path shouldn't be a directory: /d/")) ∧
    (∃ r, nsFix.buildRequest upId "mkdir" "POST" "/a" 5 6 = Except.ok r) ∧
    nsFix.Read upId do404 "/a" 5 6 = ([], GoResult.ok (none, none)) :=
  ⟨(c7_invalid_path_checks upId do404 nsFix "mkdir" "POST" "abc" 5 6).1 rfl,
   (c7_invalid_path_checks upId do404 nsFix "download" "GET" "/d/" 5 6).2.1 rfl,
   (c7_invalid_path_checks upId do404 nsFix "mkdir" "POST" "/a" 5 6).2.2.1 "/a" rfl rfl,
   (c7_invalid_path_checks upId do404 nsFix "download" "GET" "/a" 5 6).2.2.2 rfl rfl "/a" rfl⟩

/-- C8 (code bug): when the wrapped stream reports end of data while
skipping, the claim requires Read to report a delivered-byte count of zero
alongside the error; the code returns int(r.seen) instead.  With content
[5, 6] and offset 3, Read skips 2 bytes, hits EOF, delivers no bytes into
the caller's buffer, yet reports n = 2 with the error. -/
theorem c8_skip_error_count :
    readFromRead ⟨[5, 6], 0, 3, 0⟩ 4 = ⟨2, [], some "EOF", ⟨[5, 6], 2, 3, 2⟩⟩ := by
  simp [readFromRead, skipLoop, streamRead]

/-- C9 counterexample: the claim quantifies over every configuration
parameter bag, but a nil bag — in which hostname, keyname and key are all
missing — makes nsDriverFactory.Create skip validation entirely and return
a driver (with no remote client installed) and a nil error. -/
theorem c9_nil_parameters_accepted :
    nsDriverFactory.Create lfFix none =
      GoResult.ok (Except.ok { ns := none, localSet := false }) := rfl

/-- C9 (corrected): restricted to non-nil parameter bags, construction does
return an error whenever a credential key is absent, whenever ssl is
present but neither a bool nor a ParseBool-accepted string, and — provided
the credential values are non-empty, so NewNetstorage does not panic
first — whenever the localDriver map has more than one entry. -/
theorem c9_config_validation (lf : String → Option (List (String × PVal)) → Except String Unit)
    (ps : List (String × PVal)) (h : badConfig ps = true) :
    ∃ e, nsDriverFactory.Create lf (some ps) = GoResult.ok (Except.error e) := by
  rcases hh : lookupP ps "hostname" with _ | hv
  · exact ⟨"hostname required", by simp [nsDriverFactory.Create, hh]⟩
  rcases hk : lookupP ps "keyname" with _ | knv
  · exact ⟨"keyname required", by simp [nsDriverFactory.Create, hh, hk]⟩
  rcases hke : lookupP ps "key" with _ | kv
  · exact ⟨"key required", by simp [nsDriverFactory.Create, hh, hk, hke]⟩
  have hmc : missingCreds ps = false := by simp [missingCreds, hh, hk, hke]
  by_cases hsb : sslBad ps = true
  · rcases hs : lookupP ps "ssl" with _ | v
    · simp [sslBad, hs] at hsb
    · cases v with
      | pstr s =>
          rcases hpb : parseBool s with _ | b
          · exact ⟨"invalid ssl value " ++ s, by simp [nsDriverFactory.Create, hh, hk, hke, hs, hpb]⟩
          · simp [sslBad, hs, hpb] at hsb
      | pbool b => simp [sslBad, hs] at hsb
      | pnull =>
          exact ⟨"invalid ssl value " ++ sprint PVal.pnull,
                 by simp [nsDriverFactory.Create, hh, hk, hke, hs]⟩
      | pmap m =>
          exact ⟨"invalid ssl value " ++ sprint (PVal.pmap m),
                 by simp [nsDriverFactory.Create, hh, hk, hke, hs]⟩
      | pint i =>
          exact ⟨"invalid ssl value " ++ sprint (PVal.pint i),
                 by simp [nsDriverFactory.Create, hh, hk, hke, hs]⟩
  · have hsbf : sslBad ps = false := by
      cases hx : sslBad ps
      · rfl
      · exact absurd hx hsb
    have hcm : credsNonEmpty ps = true ∧ multiLocal ps = true := by
      have h2 := h
      simp [badConfig, hmc, hsbf, Bool.and_eq_true] at h2
      exact h2
    obtain ⟨hce, hml⟩ := hcm
    have hne : (sprint hv = "" || sprint knv = "" || sprint kv = "") = false := by
      have h3 := hce
      simp only [credsNonEmpty, hh, hk, hke] at h3
      simp only [Bool.not_eq_true'] at h3
      exact h3
    rcases hl : lookupP ps "localDriver" with _ | w
    · simp [multiLocal, hl] at hml
    · cases w with
      | pmap db =>
          have hlen : ¬(db.length = 1) := by
            simp [multiLocal, hl] at hml
            omega
          rcases hs : lookupP ps "ssl" with _ | v
          · exact ⟨"There can be only one local driver",
                   by simp [nsDriverFactory.Create, hh, hk, hke, hs, NewNetstorage, hne,
                            hl, hlen]⟩
          · cases v with
            | pstr s =>
                rcases hpb : parseBool s with _ | b
                · simp [sslBad, hs, hpb] at hsbf
                · exact ⟨"There can be only one local driver",
                         by simp [nsDriverFactory.Create, hh, hk, hke, hs, hpb,
                                  NewNetstorage, hne, hl, hlen]⟩
            | pbool b =>
                exact ⟨"There can be only one local driver",
                       by simp [nsDriverFactory.Create, hh, hk, hke, hs, NewNetstorage,
                                hne, hl, hlen]⟩
            | pnull => simp [sslBad, hs] at hsbf
            | pmap m => simp [sslBad, hs] at hsbf
            | pint i => simp [sslBad, hs] at hsbf
      | pstr s => simp [multiLocal, hl] at hml
      | pbool b => simp [multiLocal, hl] at hml
      | pnull => simp [multiLocal, hl] at hml
      | pint i => simp [multiLocal, hl] at hml

/-- C9 witness: a bag with only hostname present is a bad configuration and
construction returns an error on it. -/
theorem c9_config_validation_witness :
    badConfig [("hostname", PVal.pstr "h")] = true ∧
    (∃ e, nsDriverFactory.Create lfFix (some [("hostname", PVal.pstr "h")]) =
      GoResult.ok (Except.error e)) :=
  ⟨rfl, c9_config_validation lfFix [("hostname", PVal.pstr "h")] rfl⟩

/-- C10 (confirmed): whenever the parsed stat response carries an empty
entry list, the remote branch of Driver.Stat indexes Files[0] with no
bounds check and panics with the index-out-of-range runtime error instead
of returning an error value. -/
theorem c10_stat_empty_panics (pathJoin : String → String → String) (st : StatData)
    (h : st.Files = []) :
    Driver.statRemote pathJoin (some st, none) =
      GoResult.panicked "runtime error: index out of range" := by
  simp [Driver.statRemote, goIndex, h]

/-- C10 witness: the panic at a concrete empty stat response. -/
theorem c10_stat_empty_panics_witness :
    Driver.statRemote (fun a b => a ++ "/" ++ b) (some ⟨"/dir", []⟩, none) =
      GoResult.panicked "runtime error: index out of range" :=
  c10_stat_empty_panics (fun a b => a ++ "/" ++ b) ⟨"/dir", []⟩ rfl
